import Mathlib

/-!
Verification of the DirectPipe icon generator
(`src/host/Resources/make_icon.py`) against its specification.

The script is a straight-line Pillow program that procedurally draws a
512x512 RGBA application icon (rounded-rectangle background, subtle
gradient layer clipped by a mask, blurred glow, microphone capsule with
reflection and grille lines, arc holder, stand, chevrons) and a derived
256x256 Lanczos downscale.

Shallow embedding conventions:
* Pixels are RGBA records with exact rational channels in `[0,255]`.
* An image is its dimensions plus a pixel function `ℤ → ℤ → RGBA`.
* Pillow's `ImageDraw` primitives on an RGBA image REPLACE pixels (no
  blending); only `Image.alpha_composite` alpha-blends.  The embedding
  mirrors this: draw steps overwrite the pixel function on the drawn
  region, and `alphaComposite` implements source-over.
* Geometric primitives of the Pillow library (rounded rectangles,
  ellipse arcs, thick lines) are modelled by their ideal real regions
  with exact rational tests; the library's scan-conversion code is not
  part of this repository.
* Float expressions of the source are embedded by their exact IEEE-754
  double evaluation, which was checked exhaustively against closed
  integer forms (the deviations from exact rational arithmetic are
  recorded pointwise below).
-/

/-- An RGBA pixel; channels are exact rationals in `[0, 255]`. -/
structure RGBA where
  r : ℚ
  g : ℚ
  b : ℚ
  a : ℚ
deriving DecidableEq, Repr

/-- The fully transparent pixel (Pillow `(0, 0, 0, 0)`). -/
def RGBA.clear : RGBA := ⟨0, 0, 0, 0⟩

/-- An RGBA raster image: dimensions plus a pixel function. -/
structure Image where
  width : ℕ
  height : ℕ
  pix : ℤ → ℤ → RGBA

/-- A single-channel (mode `L`) raster image. -/
structure GrayImage where
  width : ℕ
  height : ℕ
  pix : ℤ → ℤ → ℕ

/-! ### Colors (make_icon.py lines 10-14) -/

/-- `BG_DARK = (30, 30, 46, 255)` (line 10). -/
def BG_DARK : RGBA := ⟨30, 30, 46, 255⟩

/-- `ACCENT = (108, 99, 255)`, drawn opaque (line 11). -/
def ACCENT : RGBA := ⟨108, 99, 255, 255⟩

/-- `ACCENT_LIGHT = (150, 142, 255)`, drawn opaque (line 12). -/
def ACCENT_LIGHT : RGBA := ⟨150, 142, 255, 255⟩

/-- `ACCENT_DIM = (80, 72, 200)`, drawn opaque (line 13). -/
def ACCENT_DIM : RGBA := ⟨80, 72, 200, 255⟩

/-- `BORDER = (58, 56, 96)`, drawn opaque (line 14). -/
def BORDER : RGBA := ⟨58, 56, 96, 255⟩

/-! ### Rounded-rectangle regions

`ImageDraw.rounded_rectangle([(l,t),(r,b)], radius)` fills the closed
rounded-rectangle region: the bounding box minus the four corner squares
outside the quarter-disc of the given radius. -/

/-- Membership of the point `(x, y)` in the closed rounded rectangle with
bounding box `[l, r] × [t, b]` and corner radius `rad`. -/
def inRR (l t r b rad x y : ℚ) : Prop :=
  l ≤ x ∧ x ≤ r ∧ t ≤ y ∧ y ≤ b ∧
  (x < l + rad → y < t + rad → (x - (l + rad))^2 + (y - (t + rad))^2 ≤ rad^2) ∧
  (r - rad < x → y < t + rad → (x - (r - rad))^2 + (y - (t + rad))^2 ≤ rad^2) ∧
  (x < l + rad → b - rad < y → (x - (l + rad))^2 + (y - (b - rad))^2 ≤ rad^2) ∧
  (r - rad < x → b - rad < y → (x - (r - rad))^2 + (y - (b - rad))^2 ≤ rad^2)

instance (l t r b rad x y : ℚ) : Decidable (inRR l t r b rad x y) := by
  unfold inRR; infer_instance

/-- Strict interior of the rounded rectangle: all boundary comparisons
strict. -/
def strictInRR (l t r b rad x y : ℚ) : Prop :=
  l < x ∧ x < r ∧ t < y ∧ y < b ∧
  (x < l + rad → y < t + rad → (x - (l + rad))^2 + (y - (t + rad))^2 < rad^2) ∧
  (r - rad < x → y < t + rad → (x - (r - rad))^2 + (y - (t + rad))^2 < rad^2) ∧
  (x < l + rad → b - rad < y → (x - (l + rad))^2 + (y - (b - rad))^2 < rad^2) ∧
  (r - rad < x → b - rad < y → (x - (r - rad))^2 + (y - (b - rad))^2 < rad^2)

instance (l t r b rad x y : ℚ) : Decidable (strictInRR l t r b rad x y) := by
  unfold strictInRR; infer_instance

/-- Strict exterior of the rounded rectangle: outside the bounding box, or
strictly beyond a corner arc. -/
def strictOutRR (l t r b rad x y : ℚ) : Prop :=
  x < l ∨ r < x ∨ y < t ∨ b < y ∨
  (x < l + rad ∧ y < t + rad ∧ rad^2 < (x - (l + rad))^2 + (y - (t + rad))^2) ∨
  (r - rad < x ∧ y < t + rad ∧ rad^2 < (x - (r - rad))^2 + (y - (t + rad))^2) ∨
  (x < l + rad ∧ b - rad < y ∧ rad^2 < (x - (l + rad))^2 + (y - (b - rad))^2) ∨
  (r - rad < x ∧ b - rad < y ∧ rad^2 < (x - (r - rad))^2 + (y - (b - rad))^2)

instance (l t r b rad x y : ℚ) : Decidable (strictOutRR l t r b rad x y) := by
  unfold strictOutRR; infer_instance

theorem inRR_of_strictIn {l t r b rad x y : ℚ}
    (h : strictInRR l t r b rad x y) : inRR l t r b rad x y := by
  obtain ⟨h1, h2, h3, h4, h5, h6, h7, h8⟩ := h
  exact ⟨le_of_lt h1, le_of_lt h2, le_of_lt h3, le_of_lt h4,
    fun a c => le_of_lt (h5 a c), fun a c => le_of_lt (h6 a c),
    fun a c => le_of_lt (h7 a c), fun a c => le_of_lt (h8 a c)⟩

theorem not_inRR_of_strictOut {l t r b rad x y : ℚ}
    (h : strictOutRR l t r b rad x y) : ¬ inRR l t r b rad x y := by
  intro ⟨h1, h2, h3, h4, h5, h6, h7, h8⟩
  rcases h with h | h | h | h | ⟨a, c, h⟩ | ⟨a, c, h⟩ | ⟨a, c, h⟩ | ⟨a, c, h⟩
  · exact absurd h1 (not_le.mpr h)
  · exact absurd h2 (not_le.mpr h)
  · exact absurd h3 (not_le.mpr h)
  · exact absurd h4 (not_le.mpr h)
  · exact absurd (h5 a c) (not_le.mpr h)
  · exact absurd (h6 a c) (not_le.mpr h)
  · exact absurd (h7 a c) (not_le.mpr h)
  · exact absurd (h8 a c) (not_le.mpr h)

/-! ### Alpha compositing

`Image.alpha_composite(dst, src)` performs standard source-over
compositing of non-premultiplied RGBA: with `sa = src.a/255`,
`da = dst.a/255`, `oa = sa + da*(1-sa)`, the output color channel is
`(src.c*sa + dst.c*da*(1-sa)) / oa` and the output alpha is `255*oa`. -/

/-- The combined alpha (in `[0,1]` scale) of source-over compositing. -/
def RGBA.overA (fg bg : RGBA) : ℚ :=
  fg.a / 255 + bg.a / 255 * (1 - fg.a / 255)

/-- Source-over alpha compositing of one pixel (`fg` over `bg`). -/
def RGBA.over (fg bg : RGBA) : RGBA :=
  if RGBA.overA fg bg = 0 then RGBA.clear
  else ⟨(fg.r * (fg.a / 255) + bg.r * (bg.a / 255) * (1 - fg.a / 255)) / RGBA.overA fg bg,
        (fg.g * (fg.a / 255) + bg.g * (bg.a / 255) * (1 - fg.a / 255)) / RGBA.overA fg bg,
        (fg.b * (fg.a / 255) + bg.b * (bg.a / 255) * (1 - fg.a / 255)) / RGBA.overA fg bg,
        255 * RGBA.overA fg bg⟩

/-- Compositing over an opaque background pixel yields an opaque pixel. -/
theorem RGBA.over_a_of_opaque (fg bg : RGBA) (h : bg.a = 255) :
    (RGBA.over fg bg).a = 255 := by
  have hoa : RGBA.overA fg bg = 1 := by
    unfold RGBA.overA; rw [h]; ring
  unfold RGBA.over
  rw [hoa]
  norm_num

/-- Compositing two transparent pixels yields a transparent pixel. -/
theorem RGBA.over_a_of_clear (fg bg : RGBA) (hf : fg.a = 0) (hb : bg.a = 0) :
    (RGBA.over fg bg).a = 0 := by
  have hoa : RGBA.overA fg bg = 0 := by
    unfold RGBA.overA; rw [hf, hb]; ring
  unfold RGBA.over
  rw [hoa]
  norm_num [RGBA.clear]

/-- Pixelwise source-over compositing of whole images
(`img = Image.alpha_composite(img, layer)`; the result keeps the
destination's dimensions). -/
def alphaComposite (dst src : Image) : Image :=
  ⟨dst.width, dst.height, fun x y => RGBA.over (src.pix x y) (dst.pix x y)⟩

/-! ## The script's fixed 512x512 pipeline (make_icon.py, top to bottom)

`ImageDraw` draw calls REPLACE pixels on the target RGBA image; the two
`Image.alpha_composite` calls are the only alpha-blending merges. -/

/-- `SIZE = 512` (line 5). -/
def SIZE : ℕ := 512

/-- Line 6: `img = Image.new('RGBA', (SIZE, SIZE), (0, 0, 0, 0))`. -/
def imgBase : Image := ⟨SIZE, SIZE, fun _ _ => RGBA.clear⟩

/-- The 3-pixel-wide border ring of the background rounded rectangle
(`outline=BORDER, width=3` strokes inward from the boundary). -/
def borderRing (x y : ℚ) : Prop :=
  inRR 16 16 496 496 96 x y ∧ ¬ inRR 19 19 493 493 93 x y

instance (x y : ℚ) : Decidable (borderRing x y) := by
  unfold borderRing; infer_instance

/-- Lines 17-24: background rounded rectangle `[(16,16),(496,496)]`,
`radius=96`, `fill=BG_DARK`, `outline=BORDER`, `width=3`, drawn on the
transparent base canvas. -/
def imgBG : Image :=
  ⟨SIZE, SIZE, fun x y =>
    if borderRing x y then BORDER
    else if inRR 16 16 496 496 96 x y then BG_DARK
    else RGBA.clear⟩

/-- Line 30: `alpha = max(0, int(12 * (1.0 - i / 240.0)))`, embedded by its
exact IEEE-754 double evaluation.  Exhaustive check over `i < 240`: the
value is `⌊12*(240-i)/240⌋` except at `i = 100` and `i = 200`, where the
float rounding of `i/240.0` makes the product land just below the exact
integer (7 resp. 2), so `int` truncates one lower. -/
def gradAlpha (i : ℕ) : ℕ :=
  12 * (240 - i) / 240 - (if i = 100 ∨ i = 200 then 1 else 0)

/-- Lines 27-31: the gradient layer `grad_img`; horizontal lines at
`y = 16 + i` for `i < 240`, spanning `x ∈ [16, 496]`, color
`(80, 75, 140, gradAlpha i)`; transparent elsewhere. -/
def grad_img : Image :=
  ⟨SIZE, SIZE, fun x y =>
    if 16 ≤ x ∧ x ≤ 496 ∧ 16 ≤ y ∧ y < 256 then
      ⟨80, 75, 140, (gradAlpha (y - 16).toNat : ℚ)⟩
    else RGBA.clear⟩

/-- Lines 34-36: the single-channel clipping mask, a rounded rectangle
`[(16,16),(496,496)]`, `radius=96`, `fill=255` on a zero `L` canvas. -/
def mask : GrayImage :=
  ⟨SIZE, SIZE, fun x y =>
    if inRR 16 16 496 496 96 (x : ℚ) (y : ℚ) then 255 else 0⟩

/-- Line 37: `grad_img.putalpha(Image.composite(grad_img.split()[3],
zero, mask))` — the gradient layer's alpha is multiplied by `mask/255`
(the mask is 0/255-valued, so this keeps or clears the alpha). -/
def gradMasked : Image :=
  ⟨SIZE, SIZE, fun x y =>
    ⟨(grad_img.pix x y).r, (grad_img.pix x y).g, (grad_img.pix x y).b,
     (grad_img.pix x y).a * (mask.pix x y : ℚ) / 255⟩⟩

/-- Line 38: `img = Image.alpha_composite(img, grad_img)`. -/
def imgAfterGrad : Image := alphaComposite imgBG gradMasked

/-- Lines 42-48: the border ring is redrawn (`fill=None`, `outline=BORDER`,
`width=3`); a replace-draw of the ring only. -/
def imgAfterBorder : Image :=
  ⟨SIZE, SIZE, fun x y =>
    if borderRing x y then BORDER else imgAfterGrad.pix x y⟩

/-! ### Microphone geometry (lines 51-58) -/

/-- `mic_cx = 256` (line 51). -/
def mic_cx : ℤ := 256
/-- `mic_y = 85` (line 52). -/
def mic_y : ℤ := 85
/-- `mic_w = 124` (line 53). -/
def mic_w : ℤ := 124
/-- `mic_h = 190` (line 54). -/
def mic_h : ℤ := 190
/-- `mic_r = 62` (line 55). -/
def mic_r : ℤ := 62
/-- `mic_left = mic_cx - mic_w // 2 = 194` (line 57). -/
def mic_left : ℤ := mic_cx - mic_w / 2
/-- `mic_right = mic_cx + mic_w // 2 = 318` (line 58). -/
def mic_right : ℤ := mic_cx + mic_w / 2

/-- Lines 61-67: the glow layer before blurring — a rounded rectangle
`[(mic_left-20, mic_y-20), (mic_right+20, mic_y+mic_h+20)]` =
`[(174, 65), (338, 295)]`, `radius = mic_r + 20 = 82`,
`fill = (108, 99, 255, 35)` on a transparent canvas. -/
def glowBase : Image :=
  ⟨SIZE, SIZE, fun x y =>
    if inRR 174 65 338 295 82 (x : ℚ) (y : ℚ) then ⟨108, 99, 255, 35⟩
    else RGBA.clear⟩

/-- Normalized box average of halfwidth `R` of a scalar field. -/
def boxAvg (R : ℕ) (f : ℤ → ℤ → ℚ) (x y : ℤ) : ℚ :=
  (∑ dx ∈ Finset.Icc (-(R : ℤ)) R, ∑ dy ∈ Finset.Icc (-(R : ℤ)) R,
      f (x + dx) (y + dy)) / ((2 * R + 1)^2)

/-- Model of Pillow's `ImageFilter.GaussianBlur(radius)`: a normalized
convolution with a finitely supported kernel, truncated at three standard
deviations (`3 * radius`).  The exact bell-shaped weight profile is not
needed by any claim; a normalized uniform kernel of the same support is
used.  Each channel is filtered independently and dimensions are kept. -/
def gaussianBlurModel (radius : ℕ) (im : Image) : Image :=
  ⟨im.width, im.height, fun x y =>
    ⟨boxAvg (3 * radius) (fun u v => (im.pix u v).r) x y,
     boxAvg (3 * radius) (fun u v => (im.pix u v).g) x y,
     boxAvg (3 * radius) (fun u v => (im.pix u v).b) x y,
     boxAvg (3 * radius) (fun u v => (im.pix u v).a) x y⟩⟩

/-- Line 68: `glow_img = glow_img.filter(ImageFilter.GaussianBlur(radius=25))`. -/
def glow_img : Image := gaussianBlurModel 25 glowBase

/-- Line 69: `img = Image.alpha_composite(img, glow_img)`. -/
def imgAfterGlow : Image := alphaComposite imgAfterBorder glow_img

/-- Line 81: `alpha = max(0, int(45 * (1.0 - i / 25.0)))`, embedded by its
exact IEEE-754 double evaluation.  Exhaustive check over `i < 25`: the
value is `⌊45*(25-i)/25⌋` except at `i = 20`, where float rounding lands
just below the exact integer 9. -/
def reflAlpha (i : ℕ) : ℕ :=
  45 * (25 - i) / 25 - (if i = 20 then 1 else 0)

/-- `for y_offset in range(0, 120, 24)` (line 87). -/
def grilleOffsets : List ℤ := [0, 24, 48, 72, 96]

/-- The clamped radicand `max(0, mic_r**2 - ((y - mic_y - mic_h/2)**2))`
of line 90 (`mic_h/2 = 95.0` is exact in floating point). -/
def grilleRad (y : ℤ) : ℕ :=
  (max 0 (mic_r^2 - (y - mic_y - mic_h / 2)^2)).toNat

/-- Line 90: `half_w = int(math.sqrt(max(0, mic_r**2 - ((y - mic_y -
mic_h/2)**2))) * 0.7)`, i.e. `⌊0.7·√m⌋` with `m = grilleRad y`.
Since `0.7·√m = √(49·m)/10`, the floor is `Nat.sqrt (49*m) / 10`; the five
evaluated values were checked against the script's float arithmetic. -/
def grilleHalfW (y : ℤ) : ℕ :=
  Nat.sqrt (49 * grilleRad y) / 10

/-- Lines 87-95 as a region: `(x, y)` is on some drawn grille line (each
line has width 3, hence covers rows `y0-1 .. y0+1`). -/
def grilleHit (x y : ℤ) : Bool :=
  grilleOffsets.any fun off =>
    decide (mic_y + 48 + off < mic_y + mic_h - 25 ∧
      mic_y + 48 + off - 1 ≤ y ∧ y ≤ mic_y + 48 + off + 1 ∧
      mic_cx - (grilleHalfW (mic_y + 48 + off) : ℤ) ≤ x ∧
      x ≤ mic_cx + (grilleHalfW (mic_y + 48 + off) : ℤ))

/-- Lines 80-84 as a region: the 25 one-pixel-wide reflection columns
`x = mic_left + 18 + i` (`i < 25`), `y ∈ [mic_y+40, mic_y+mic_h-50]`. -/
def reflHit (x y : ℤ) : Prop :=
  mic_left + 18 ≤ x ∧ x ≤ mic_left + 18 + 24 ∧
  mic_y + 40 ≤ y ∧ y ≤ mic_y + mic_h - 50

instance (x y : ℤ) : Decidable (reflHit x y) := by
  unfold reflHit; infer_instance

/-- Lines 73-95: the microphone capsule (filled rounded rectangle
`[(mic_left, mic_y), (mic_right, mic_y+mic_h)]`, `radius=mic_r`,
`fill=ACCENT`), then the reflection columns, then the grille lines, each
draw replacing the pixels underneath. -/
def drawMic (im : Image) : Image :=
  ⟨SIZE, SIZE, fun x y =>
    if grilleHit x y then ⟨30, 30, 46, 90⟩
    else if reflHit x y then
      ⟨180, 175, 255, (reflAlpha (x - (mic_left + 18)).toNat : ℚ)⟩
    else if inRR (mic_left : ℚ) (mic_y : ℚ) (mic_right : ℚ)
        ((mic_y + mic_h : ℤ) : ℚ) (mic_r : ℚ) (x : ℚ) (y : ℚ) then ACCENT
    else im.pix x y⟩

def imgAfterMic : Image := drawMic imgAfterGlow

/-! ### Arc holder, stand, chevrons (lines 97-126) -/

/-- The stroke band of a lower-half ellipse arc: center `(cx, cy)`,
semi-axes `(sa, sb)`, stroke width `w` drawn inward.  `draw.arc` with
`start=0, end=180` covers the lower half (`y ≥ cy`; Pillow angles grow
clockwise from 3 o'clock). -/
def arcBand (cx cy sa sb w x y : ℚ) : Prop :=
  cy ≤ y ∧ (x - cx)^2 * sb^2 + (y - cy)^2 * sa^2 ≤ sa^2 * sb^2 ∧
  (sa - w)^2 * (sb - w)^2 < (x - cx)^2 * (sb - w)^2 + (y - cy)^2 * (sa - w)^2

instance (cx cy sa sb w x y : ℚ) : Decidable (arcBand cx cy sa sb w x y) := by
  unfold arcBand; infer_instance

/-- Lines 98-100: `arc_w = 200`, bbox `[(156, 185), (356, 345)]`, i.e. the
ellipse centered `(256, 265)` with semi-axes `(100, 80)`; `start=0`,
`end=180`, `width=11`. -/
def arcHit (x y : ℤ) : Prop := arcBand 256 265 100 80 11 (x : ℚ) (y : ℚ)

instance (x y : ℤ) : Decidable (arcHit x y) := by
  unfold arcHit; infer_instance

/-- Line 103: vertical stand line `(256, 335)-(256, 380)`, width 11
(5 pixels on each side of the center column). -/
def standHit (x y : ℤ) : Prop :=
  mic_cx - 5 ≤ x ∧ x ≤ mic_cx + 5 ∧ 335 ≤ y ∧ y ≤ 380

instance (x y : ℤ) : Decidable (standHit x y) := by
  unfold standHit; infer_instance

/-- Line 105: horizontal base line `(214, 380)-(298, 380)`, width 9
(4 pixels on each side of the center row). -/
def baseHit (x y : ℤ) : Prop :=
  mic_cx - 42 ≤ x ∧ x ≤ mic_cx + 42 ∧ 376 ≤ y ∧ y ≤ 384

instance (x y : ℤ) : Decidable (baseHit x y) := by
  unfold baseHit; infer_instance

/-- Lines 102-105 drawn over the current image (replace semantics, arc
first, then stand, then base; all `ACCENT_LIGHT`). -/
def drawArcStand (im : Image) : Image :=
  ⟨SIZE, SIZE, fun x y =>
    if baseHit x y ∨ standHit x y ∨ arcHit x y then ACCENT_LIGHT
    else im.pix x y⟩

/-- Squared distance from the point `(px, py)` to the segment from
`(ax, ay)` to `(qx, qy)`. -/
def segDistSq (px py ax ay qx qy : ℚ) : ℚ :=
  (px - (ax + max 0 (min 1 (((px - ax) * (qx - ax) + (py - ay) * (qy - ay)) /
      ((qx - ax)^2 + (qy - ay)^2))) * (qx - ax)))^2 +
  (py - (ay + max 0 (min 1 (((px - ax) * (qx - ax) + (py - ay) * (qy - ay)) /
      ((qx - ax)^2 + (qy - ay)^2))) * (qy - ay)))^2

/-- The stroke region of one chevron `›` glyph: two segments
`(c-e, cy-h) → (c+e, cy)` and `(c+e, cy) → (c-e, cy+h)` thickened to
halfwidth `hw` (stroke width `2*hw`, `joint="curve"` gives round caps and
joints, i.e. exactly the set of points within distance `hw` of the
polyline). -/
def chevronHit (c cy h e hw x y : ℚ) : Prop :=
  segDistSq x y (c - e) (cy - h) (c + e) cy ≤ hw^2 ∨
  segDistSq x y (c + e) cy (c - e) (cy + h) ≤ hw^2

instance (c cy h e hw x y : ℚ) : Decidable (chevronHit c cy h e hw x y) := by
  unfold chevronHit; infer_instance

/-- `chevron_y = 435` (line 108). -/
def chevron_y : ℤ := 435
/-- `chevron_h = 26` (line 109). -/
def chevron_h : ℤ := 26

/-- Lines 111-116: `positions_colors` — chevron center x-position, RGB
color, and alpha, in drawing order. -/
def positions_colors : List (ℤ × (ℕ × ℕ × ℕ) × ℕ) :=
  [(168, (150, 142, 255), 240),
   (228, (108, 99, 255), 210),
   (288, (80, 72, 200), 170),
   (348, (60, 54, 160), 120)]

/-- Lines 118-126: the chevron loop; each chevron is a width-8 polyline
(halfwidth 4) drawn with replace semantics in list order. -/
def drawChevrons (im : Image) : Image :=
  positions_colors.foldl
    (fun acc pc =>
      ⟨SIZE, SIZE, fun x y =>
        if chevronHit (pc.1 : ℚ) (chevron_y : ℚ) (chevron_h : ℚ) 16 4
            (x : ℚ) (y : ℚ) then
          ⟨(pc.2.1.1 : ℚ), (pc.2.1.2.1 : ℚ), (pc.2.1.2.2 : ℚ), (pc.2.2 : ℚ)⟩
        else acc.pix x y⟩)
    im

/-- The fully drawn 512x512 icon (the value of `img` at line 129). -/
def icon : Image := drawChevrons (drawArcStand imgAfterMic)

/-- Pillow resampling filters relevant to the script. -/
inductive ResampleFilter
  | nearest
  | bilinear
  | lanczos
deriving DecidableEq, Repr

/-- `Image.resize((w, h), filter)`: the result has exactly the requested
dimensions.  Pixel values are resampled from the source at the scaled
position; the Lanczos kernel's irrational sinc weights are outside the
scope of the claims, so the sample model takes the covering source pixel
(the filter argument selects the kernel in Pillow and is recorded
faithfully). -/
def Image.resize (im : Image) (w h : ℕ) (filter : ResampleFilter) : Image :=
  match filter with
  | _ => ⟨w, h, fun x y => im.pix (x * im.width / (w : ℤ)) (y * im.height / (h : ℤ))⟩

/-- Line 133: `img_256 = img.resize((256, 256), Image.LANCZOS)`. -/
def icon256 : Image := Image.resize icon 256 256 ResampleFilter.lanczos

/-! ## Parameterized renderer, modelled from the spec

The script hard-codes `SIZE = 512`; the specification's contract
`render(size) -> RasterImage` with an `InvalidDimension` error has no
implementation in the repository.  The definitions below are therefore
modelled from the spec: the fixed 512-reference layout drawn by the
script, scaled to the requested canvas size (the spec demands behavior
identical to the script at size 512 and properties such as an opaque
center and transparent corners for every valid size `s ≥ 64`). -/

/-- Modelled from the spec: a design coordinate of the 512-reference
layout, scaled to canvas size `s`. -/
def sc (s c : ℤ) : ℚ := (c : ℚ) * (s : ℚ) / 512

/-- Modelled from the spec: the background layer (step 2) — the rounded
rectangle panel with its 3-wide border ring, scaled. -/
def bgPixS (s x y : ℤ) : RGBA :=
  if inRR (sc s 16) (sc s 16) (sc s 496) (sc s 496) (sc s 96) (x : ℚ) (y : ℚ) then
    (if inRR (sc s 19) (sc s 19) (sc s 493) (sc s 493) (sc s 93) (x : ℚ) (y : ℚ)
      then BG_DARK else BORDER)
  else RGBA.clear

/-- Modelled from the spec: per-scanline gradient alpha, linear decay
from 12 to 0 across the scaled 240-row band (step 2). -/
def gradAlphaS (s y : ℤ) : ℚ :=
  ((max 0 ⌊(12 : ℚ) * (1 - ((y : ℚ) - sc s 16) / sc s 240)⌋ : ℤ) : ℚ)

/-- Modelled from the spec: the gradient layer (step 2), clipped to the
rounded-rectangle silhouette by the mask. -/
def gradPixS (s x y : ℤ) : RGBA :=
  if inRR (sc s 16) (sc s 16) (sc s 496) (sc s 496) (sc s 96) (x : ℚ) (y : ℚ) ∧
      sc s 16 ≤ (y : ℚ) ∧ (y : ℚ) < sc s 256 then
    ⟨80, 75, 140, gradAlphaS s y⟩
  else RGBA.clear

/-- Modelled from the spec: the unblurred glow layer (step 3), scaled. -/
def glowBasePixS (s x y : ℤ) : RGBA :=
  if inRR (sc s 174) (sc s 65) (sc s 338) (sc s 295) (sc s 82) (x : ℚ) (y : ℚ) then
    ⟨108, 99, 255, 35⟩
  else RGBA.clear

/-- Modelled from the spec: the blur truncation halfwidth, three scaled
standard deviations (`3 * 25 * s / 512`). -/
def blurRS (s : ℤ) : ℕ := 75 * s.toNat / 512

/-- Modelled from the spec: the blurred glow layer (step 3). -/
def glowPixS (s x y : ℤ) : RGBA :=
  ⟨boxAvg (blurRS s) (fun u v => (glowBasePixS s u v).r) x y,
   boxAvg (blurRS s) (fun u v => (glowBasePixS s u v).g) x y,
   boxAvg (blurRS s) (fun u v => (glowBasePixS s u v).b) x y,
   boxAvg (blurRS s) (fun u v => (glowBasePixS s u v).a) x y⟩

/-- Modelled from the spec: the scaled microphone capsule silhouette. -/
def capsuleS (s x y : ℤ) : Prop :=
  inRR (sc s 194) (sc s 85) (sc s 318) (sc s 275) (sc s 62) (x : ℚ) (y : ℚ)

instance (s x y : ℤ) : Decidable (capsuleS s x y) := by
  unfold capsuleS; infer_instance

/-- Modelled from the spec: one scaled grille row (`k < 5`), of scaled
width 3, with the reference design's half-widths. -/
def grilleRowS (s k x y : ℤ) : Prop :=
  |(y : ℚ) - sc s (133 + 24 * k)| * 1024 ≤ 3 * (s : ℚ) ∧
  |(x : ℚ) - sc s 256| ≤ sc s (grilleHalfW (133 + 24 * k) : ℤ)

instance (s k x y : ℤ) : Decidable (grilleRowS s k x y) := by
  unfold grilleRowS; infer_instance

/-- Modelled from the spec: interior decoration of the capsule (step 4) —
grille rows over a linearly decaying reflection band over the accent
fill; clipped to the capsule by `bodyPixS`. -/
def bodyDetailS (s x y : ℤ) : RGBA :=
  if grilleRowS s 0 x y ∨ grilleRowS s 1 x y ∨ grilleRowS s 2 x y ∨
      grilleRowS s 3 x y ∨ grilleRowS s 4 x y then ⟨30, 30, 46, 90⟩
  else if sc s 212 ≤ (x : ℚ) ∧ (x : ℚ) ≤ sc s 236 ∧
      sc s 125 ≤ (y : ℚ) ∧ (y : ℚ) ≤ sc s 225 then
    ⟨180, 175, 255,
     ((max 0 ⌊(45 : ℚ) * (1 - ((x : ℚ) * 512 / (s : ℚ) - 212) / 25)⌋ : ℤ) : ℚ)⟩
  else ACCENT

/-- Modelled from the spec: the body layer (step 4), transparent outside
the capsule. -/
def bodyPixS (s x y : ℤ) : RGBA :=
  if capsuleS s x y then bodyDetailS s x y else RGBA.clear

/-- Modelled from the spec: the scaled arc holder stroke (step 5). -/
def arcHitS (s x y : ℤ) : Prop :=
  arcBand (sc s 256) (sc s 265) (sc s 100) (sc s 80) (sc s 11) (x : ℚ) (y : ℚ)

instance (s x y : ℤ) : Decidable (arcHitS s x y) := by
  unfold arcHitS; infer_instance

/-- Modelled from the spec: the scaled vertical stand stroke (step 5). -/
def standHitS (s x y : ℤ) : Prop :=
  sc s 251 ≤ (x : ℚ) ∧ (x : ℚ) ≤ sc s 261 ∧ sc s 335 ≤ (y : ℚ) ∧ (y : ℚ) ≤ sc s 380

instance (s x y : ℤ) : Decidable (standHitS s x y) := by
  unfold standHitS; infer_instance

/-- Modelled from the spec: the scaled base bar stroke (step 5). -/
def baseHitS (s x y : ℤ) : Prop :=
  sc s 214 ≤ (x : ℚ) ∧ (x : ℚ) ≤ sc s 298 ∧ sc s 376 ≤ (y : ℚ) ∧ (y : ℚ) ≤ sc s 384

instance (s x y : ℤ) : Decidable (baseHitS s x y) := by
  unfold baseHitS; infer_instance

/-- Modelled from the spec: one scaled chevron glyph stroke (step 6). -/
def chevronHitS (s c x y : ℤ) : Prop :=
  chevronHit (sc s c) (sc s 435) (sc s 26) (sc s 16) (sc s 4) (x : ℚ) (y : ℚ)

instance (s c x y : ℤ) : Decidable (chevronHitS s c x y) := by
  unfold chevronHitS; infer_instance

/-- Modelled from the spec: the decorations layer (steps 5-6) — arc
holder, stand, base bar and the four chevrons at decreasing alpha. -/
def decoPixS (s x y : ℤ) : RGBA :=
  if arcHitS s x y ∨ standHitS s x y ∨ baseHitS s x y then ACCENT_LIGHT
  else if chevronHitS s 168 x y then ⟨150, 142, 255, 240⟩
  else if chevronHitS s 228 x y then ⟨108, 99, 255, 210⟩
  else if chevronHitS s 288 x y then ⟨80, 72, 200, 170⟩
  else if chevronHitS s 348 x y then ⟨60, 54, 160, 120⟩
  else RGBA.clear

/-- Modelled from the spec: the composited icon pixel (step 7) — the
layers merged bottom-up with source-over blending in the fixed z-order
background, gradient, glow, body, decorations. -/
def renderPix (s x y : ℤ) : RGBA :=
  RGBA.over (decoPixS s x y)
    (RGBA.over (bodyPixS s x y)
      (RGBA.over (glowPixS s x y)
        (RGBA.over (gradPixS s x y) (bgPixS s x y))))

/-- Modelled from the spec: the rendered canvas (step 8). -/
def renderImage (s : ℤ) : Image := ⟨s.toNat, s.toNat, renderPix s⟩

/-- Modelled from the spec: the error taxonomy of §7 relevant to
rendering. -/
inductive RenderError
  | invalidDimension
deriving DecidableEq, Repr

/-- Modelled from the spec: `render(size)` — fails with `InvalidDimension`
when the requested size is non-positive or below the minimum threshold 64
the fixed layout supports; otherwise draws the icon. -/
def render (s : ℤ) : Except RenderError Image :=
  if s < 64 then Except.error RenderError.invalidDimension
  else Except.ok (renderImage s)

/-- The gradient alpha profile asserted by the spec's gradient-correctness
property, following its words: linear interpolation of the alpha from its
top value 12 to the bottom value 0 on `t = y / size` over the whole
canvas. -/
def gradAlphaClaimed (size y : ℤ) : ℤ :=
  max 0 ((12 * (size - y)) / size)

/-! ## Shared computation helpers -/

theorem grilleHalfW_def (y : ℤ) :
    grilleHalfW y = Nat.sqrt (49 * grilleRad y) / 10 := rfl

theorem sqrt_80115 : Nat.sqrt 80115 = 283 :=
  (Nat.eq_sqrt.mpr (by constructor <;> norm_num)).symm

theorem sqrt_162435 : Nat.sqrt 162435 = 403 :=
  (Nat.eq_sqrt.mpr (by constructor <;> norm_num)).symm

theorem sqrt_188307 : Nat.sqrt 188307 = 433 :=
  (Nat.eq_sqrt.mpr (by constructor <;> norm_num)).symm

theorem sqrt_157731 : Nat.sqrt 157731 = 397 :=
  (Nat.eq_sqrt.mpr (by constructor <;> norm_num)).symm

theorem sqrt_70707 : Nat.sqrt 70707 = 265 :=
  (Nat.eq_sqrt.mpr (by constructor <;> norm_num)).symm

theorem grilleHalfW_133 : grilleHalfW 133 = 28 := by
  rw [grilleHalfW_def, show grilleRad 133 = 1635 from rfl,
    show (49 * 1635 : ℕ) = 80115 from by norm_num, sqrt_80115]

theorem grilleHalfW_157 : grilleHalfW 157 = 40 := by
  rw [grilleHalfW_def, show grilleRad 157 = 3315 from rfl,
    show (49 * 3315 : ℕ) = 162435 from by norm_num, sqrt_162435]

theorem grilleHalfW_181 : grilleHalfW 181 = 43 := by
  rw [grilleHalfW_def, show grilleRad 181 = 3843 from rfl,
    show (49 * 3843 : ℕ) = 188307 from by norm_num, sqrt_188307]

theorem grilleHalfW_205 : grilleHalfW 205 = 39 := by
  rw [grilleHalfW_def, show grilleRad 205 = 3219 from rfl,
    show (49 * 3219 : ℕ) = 157731 from by norm_num, sqrt_157731]

theorem grilleHalfW_229 : grilleHalfW 229 = 26 := by
  rw [grilleHalfW_def, show grilleRad 229 = 1443 from rfl,
    show (49 * 1443 : ℕ) = 70707 from by norm_num, sqrt_70707]

/-- The gradient alphas of lines 29-31 are monotonically non-increasing:
the exact-arithmetic profile `12*(240-i)/240` is antitone, and the two
IEEE rounding corrections (at `i = 100, 200`) each land exactly on the
value the profile takes one step later. -/
theorem gradAlpha_antitone : ∀ i j : ℕ, i ≤ j → gradAlpha j ≤ gradAlpha i := by
  have hf : ∀ i j : ℕ, i ≤ j → 12 * (240 - j) / 240 ≤ 12 * (240 - i) / 240 := by
    intro i j hij
    exact Nat.div_le_div_right (Nat.mul_le_mul_left _ (Nat.sub_le_sub_left hij 240))
  have hle : ∀ n : ℕ, gradAlpha n ≤ 12 * (240 - n) / 240 := by
    intro n; unfold gradAlpha; exact Nat.sub_le _ _
  intro i j hij
  by_cases hi : i = 100 ∨ i = 200
  · rcases hi with hi | hi
    · subst hi
      rcases Nat.eq_or_lt_of_le hij with h | h
      · subst h; exact le_refl _
      · calc gradAlpha j ≤ 12 * (240 - j) / 240 := hle j
          _ ≤ 12 * (240 - 101) / 240 := hf 101 j h
          _ ≤ gradAlpha 100 := by decide
    · subst hi
      rcases Nat.eq_or_lt_of_le hij with h | h
      · subst h; exact le_refl _
      · calc gradAlpha j ≤ 12 * (240 - j) / 240 := hle j
          _ ≤ 12 * (240 - 201) / 240 := hf 201 j h
          _ ≤ gradAlpha 200 := by decide
  · push_neg at hi
    have hgi : gradAlpha i = 12 * (240 - i) / 240 := by
      unfold gradAlpha
      rw [if_neg (by tauto), Nat.sub_zero]
    rw [hgi]
    exact le_trans (hle j) (hf i j hij)

/-! ## Claims -/

/-- C1: rendering is deterministic — any two executions of the rendering
routine (the pure pipeline `icon` and its derived downscale `icon256`)
produce pixel-identical 512x512 and 256x256 images. -/
theorem render_deterministic (a b c d : Image)
    (ha : a = icon) (hb : b = icon) (hc : c = icon256) (hd : d = icon256) :
    (∀ x y, a.pix x y = b.pix x y) ∧ (∀ x y, c.pix x y = d.pix x y) := by
  subst ha; subst hb; subst hc; subst hd
  exact ⟨fun _ _ => rfl, fun _ _ => rfl⟩

theorem render_deterministic_witness :
    (∀ x y, icon.pix x y = icon.pix x y) ∧
    (∀ x y, icon256.pix x y = icon256.pix x y) :=
  render_deterministic icon icon icon256 icon256 rfl rfl rfl rfl

/-- C4 counterexample: the claim's gradient profile (interpolation on
`t = y / size` over the whole canvas, top scanline `y = 0` at the top
alpha 12) is false for the code: the drawn gradient layer is fully
transparent at scanline `y = 0` (the band only starts at `y = 16`) and at
`y = 300` (the band ends at `y = 255`), where the claimed profile gives
alphas 12 and 4. -/
theorem gradient_claim_counterexample :
    (grad_img.pix 256 0).a = 0 ∧ gradAlphaClaimed 512 0 = 12 ∧
    (grad_img.pix 256 300).a = 0 ∧ gradAlphaClaimed 512 300 = 4 := by
  refine ⟨?_, by decide, ?_, by decide⟩
  · have h : grad_img.pix 256 0 = RGBA.clear := by
      simp only [grad_img]
      rw [if_neg (by omega)]
    rw [h]; rfl
  · have h : grad_img.pix 256 300 = RGBA.clear := by
      simp only [grad_img]
      rw [if_neg (by omega)]
    rw [h]; rfl

/-- C4 (amended): the gradient layer spans only scanlines `y = 16..255`
and columns `x = 16..496`; within the band, the scanline at `y = 16 + i`
has constant color `(80, 75, 140)` with alpha `gradAlpha i` (the code's
float-evaluated `max(0, int(12*(1 - i/240)))`, i.e. interpolation on
`t = i / 240`, not `t = y / size`); the top band scanline has alpha 12,
the bottom band scanline alpha 0, the alphas are monotonically
non-increasing, and everything outside the band is fully transparent. -/
theorem gradient_band_correct :
    (∀ x y : ℤ, 16 ≤ x → x ≤ 496 → 16 ≤ y → y < 256 →
      grad_img.pix x y = ⟨80, 75, 140, (gradAlpha (y - 16).toNat : ℚ)⟩) ∧
    gradAlpha 0 = 12 ∧ gradAlpha 239 = 0 ∧
    (∀ i j : ℕ, i ≤ j → gradAlpha j ≤ gradAlpha i) ∧
    (∀ x y : ℤ, y < 16 ∨ 256 ≤ y → grad_img.pix x y = RGBA.clear) := by
  refine ⟨?_, by decide, by decide, gradAlpha_antitone, ?_⟩
  · intro x y hx1 hx2 hy1 hy2
    simp only [grad_img]
    rw [if_pos ⟨hx1, hx2, hy1, hy2⟩]
  · intro x y hy
    simp only [grad_img]
    rw [if_neg (by omega)]

theorem gradient_band_correct_witness :
    grad_img.pix 256 16 = ⟨80, 75, 140, (gradAlpha ((16 : ℤ) - 16).toNat : ℚ)⟩ ∧
    gradAlpha 101 ≤ gradAlpha 99 ∧
    grad_img.pix 256 300 = RGBA.clear :=
  ⟨gradient_band_correct.1 256 16 (by decide) (by decide) (by decide) (by decide),
   gradient_band_correct.2.2.2.1 99 101 (by decide),
   gradient_band_correct.2.2.2.2 256 300 (Or.inr (by decide))⟩

/-- C5: for every grille line drawn by the loop (offsets in
`range(0, 120, 24)` that pass the guard), the computed half-width is
exactly `⌊0.7 * sqrt(mic_r² - dy²)⌋` with `dy = y - mic_y - mic_h/2`
(stated as the integer floor characterization
`(10·hw)² ≤ 49·(r²-dy²) < (10·(hw+1))²`), and both endpoints
`(mic_cx ± hw, y)` lie strictly inside the capsule's rounded
silhouette. -/
theorem grille_halfwidth_inside_capsule :
    ∀ off ∈ grilleOffsets,
      mic_y + 48 + off < mic_y + mic_h - 25 →
      ((100 : ℤ) * (grilleHalfW (mic_y + 48 + off) : ℤ)^2
          ≤ 49 * (mic_r^2 - (mic_y + 48 + off - mic_y - mic_h / 2)^2) ∧
        49 * (mic_r^2 - (mic_y + 48 + off - mic_y - mic_h / 2)^2)
          < 100 * ((grilleHalfW (mic_y + 48 + off) : ℤ) + 1)^2) ∧
      strictInRR (mic_left : ℚ) (mic_y : ℚ) (mic_right : ℚ) ((mic_y + mic_h : ℤ) : ℚ)
        (mic_r : ℚ) ((mic_cx - (grilleHalfW (mic_y + 48 + off) : ℤ) : ℤ) : ℚ)
        ((mic_y + 48 + off : ℤ) : ℚ) ∧
      strictInRR (mic_left : ℚ) (mic_y : ℚ) (mic_right : ℚ) ((mic_y + mic_h : ℤ) : ℚ)
        (mic_r : ℚ) ((mic_cx + (grilleHalfW (mic_y + 48 + off) : ℤ) : ℤ) : ℚ)
        ((mic_y + 48 + off : ℤ) : ℚ) := by
  intro off hoff
  fin_cases hoff
  · rw [show mic_y + 48 + 0 = 133 from rfl, grilleHalfW_133]
    intro _
    refine ⟨⟨by decide, by decide⟩, ?_, ?_⟩ <;>
      norm_num [strictInRR, mic_left, mic_cx, mic_right, mic_y, mic_h, mic_r, mic_w]
  · rw [show mic_y + 48 + 24 = 157 from rfl, grilleHalfW_157]
    intro _
    refine ⟨⟨by decide, by decide⟩, ?_, ?_⟩ <;>
      norm_num [strictInRR, mic_left, mic_cx, mic_right, mic_y, mic_h, mic_r, mic_w]
  · rw [show mic_y + 48 + 48 = 181 from rfl, grilleHalfW_181]
    intro _
    refine ⟨⟨by decide, by decide⟩, ?_, ?_⟩ <;>
      norm_num [strictInRR, mic_left, mic_cx, mic_right, mic_y, mic_h, mic_r, mic_w]
  · rw [show mic_y + 48 + 72 = 205 from rfl, grilleHalfW_205]
    intro _
    refine ⟨⟨by decide, by decide⟩, ?_, ?_⟩ <;>
      norm_num [strictInRR, mic_left, mic_cx, mic_right, mic_y, mic_h, mic_r, mic_w]
  · rw [show mic_y + 48 + 96 = 229 from rfl, grilleHalfW_229]
    intro _
    refine ⟨⟨by decide, by decide⟩, ?_, ?_⟩ <;>
      norm_num [strictInRR, mic_left, mic_cx, mic_right, mic_y, mic_h, mic_r, mic_w]

theorem grille_halfwidth_witness :
    ((100 : ℤ) * (grilleHalfW (mic_y + 48 + 0) : ℤ)^2
        ≤ 49 * (mic_r^2 - (mic_y + 48 + 0 - mic_y - mic_h / 2)^2) ∧
      49 * (mic_r^2 - (mic_y + 48 + 0 - mic_y - mic_h / 2)^2)
        < 100 * ((grilleHalfW (mic_y + 48 + 0) : ℤ) + 1)^2) ∧
    strictInRR (mic_left : ℚ) (mic_y : ℚ) (mic_right : ℚ) ((mic_y + mic_h : ℤ) : ℚ)
      (mic_r : ℚ) ((mic_cx - (grilleHalfW (mic_y + 48 + 0) : ℤ) : ℤ) : ℚ)
      ((mic_y + 48 + 0 : ℤ) : ℚ) ∧
    strictInRR (mic_left : ℚ) (mic_y : ℚ) (mic_right : ℚ) ((mic_y + mic_h : ℤ) : ℚ)
      (mic_r : ℚ) ((mic_cx + (grilleHalfW (mic_y + 48 + 0) : ℤ) : ℤ) : ℚ)
      ((mic_y + 48 + 0 : ℤ) : ℚ) :=
  grille_halfwidth_inside_capsule 0 (by decide) (by decide)

/-- C6: in the clipping mask, every pixel strictly inside the
rounded-rectangle boundary (corner radius 96, rectangle
`(16,16)-(496,496)`) has value 255, and every pixel strictly outside it
has value 0. -/
theorem mask_strict_inside_outside (x y : ℤ) :
    (strictInRR 16 16 496 496 96 (x : ℚ) (y : ℚ) → mask.pix x y = 255) ∧
    (strictOutRR 16 16 496 496 96 (x : ℚ) (y : ℚ) → mask.pix x y = 0) := by
  constructor
  · intro h
    simp only [mask]
    rw [if_pos (inRR_of_strictIn h)]
  · intro h
    simp only [mask]
    rw [if_neg (not_inRR_of_strictOut h)]

theorem mask_strict_witness : mask.pix 256 256 = 255 ∧ mask.pix 0 0 = 0 :=
  ⟨(mask_strict_inside_outside 256 256).1 (by norm_num [strictInRR]),
   (mask_strict_inside_outside 0 0).2 (by norm_num [strictOutRR])⟩

/-- C7: the downscale step applied to the full-resolution 512x512 image is
a resize to exactly 256x256 pixels with the Lanczos resampling filter. -/
theorem downscale_lanczos_256 :
    icon256 = Image.resize icon 256 256 ResampleFilter.lanczos ∧
    icon256.width = 256 ∧ icon256.height = 256 :=
  ⟨rfl, rfl, rfl⟩

/-- C8: every intermediate layer (gradient layer, clipping mask, glow
layer) has the same canvas dimensions as the base image, and the icon is
assembled in the fixed z-order background (with its gradient merged by
source-over compositing), then glow (merged by source-over compositing),
then body, then decorations, where `alphaComposite` is pixelwise
source-over blending. -/
theorem layers_dims_and_zorder :
    grad_img.width = imgBase.width ∧ grad_img.height = imgBase.height ∧
    mask.width = imgBase.width ∧ mask.height = imgBase.height ∧
    glow_img.width = imgBase.width ∧ glow_img.height = imgBase.height ∧
    icon.width = imgBase.width ∧ icon.height = imgBase.height ∧
    imgAfterGrad = alphaComposite imgBG gradMasked ∧
    icon = drawChevrons (drawArcStand (drawMic
      (alphaComposite imgAfterBorder glow_img))) ∧
    (∀ dst src x y,
      (alphaComposite dst src).pix x y = RGBA.over (src.pix x y) (dst.pix x y)) :=
  ⟨rfl, rfl, rfl, rfl, rfl, rfl, rfl, rfl, rfl, rfl, fun _ _ _ _ => rfl⟩

/-- C9: the decorative chevrons are drawn at strictly decreasing alpha as
their x-position increases — for every pair in `positions_colors`, the
chevron with the greater x-position has the strictly smaller alpha. -/
theorem chevron_alpha_decreasing :
    ∀ i j : Fin positions_colors.length,
      (positions_colors.get i).1 < (positions_colors.get j).1 →
      (positions_colors.get j).2.2 < (positions_colors.get i).2.2 := by decide

theorem chevron_alpha_decreasing_witness :
    (positions_colors.get ⟨3, by decide⟩).2.2
      < (positions_colors.get ⟨0, by decide⟩).2.2 :=
  chevron_alpha_decreasing ⟨0, by decide⟩ ⟨3, by decide⟩ (by decide)

/-- C10: every `y_offset` of the grille loop passes the guard
`y < mic_y + mic_h - 25` (all five lines are drawn), the radicand
`mic_r² - (y - mic_y - mic_h/2)²` is strictly positive (the `max(0, ·)`
clamp never takes its zero branch), and every drawn line has strictly
positive half-width. -/
theorem grille_loop_guard_and_positivity :
    ∀ off ∈ grilleOffsets,
      mic_y + 48 + off < mic_y + mic_h - 25 ∧
      0 < mic_r^2 - (mic_y + 48 + off - mic_y - mic_h / 2)^2 ∧
      0 < grilleHalfW (mic_y + 48 + off) := by
  intro off hoff
  fin_cases hoff
  · exact ⟨by decide, by decide,
      by rw [show mic_y + 48 + 0 = 133 from rfl, grilleHalfW_133]; norm_num⟩
  · exact ⟨by decide, by decide,
      by rw [show mic_y + 48 + 24 = 157 from rfl, grilleHalfW_157]; norm_num⟩
  · exact ⟨by decide, by decide,
      by rw [show mic_y + 48 + 48 = 181 from rfl, grilleHalfW_181]; norm_num⟩
  · exact ⟨by decide, by decide,
      by rw [show mic_y + 48 + 72 = 205 from rfl, grilleHalfW_205]; norm_num⟩
  · exact ⟨by decide, by decide,
      by rw [show mic_y + 48 + 96 = 229 from rfl, grilleHalfW_229]; norm_num⟩

theorem grille_loop_witness :
    mic_y + 48 + 0 < mic_y + mic_h - 25 ∧
    0 < mic_r^2 - (mic_y + 48 + 0 - mic_y - mic_h / 2)^2 ∧
    0 < grilleHalfW (mic_y + 48 + 0) :=
  grille_loop_guard_and_positivity 0 (by decide)

theorem boxAvg_zero (R : ℕ) (f : ℤ → ℤ → ℚ) (x y : ℤ)
    (h : ∀ u v : ℤ, x - R ≤ u → u ≤ x + R → f u v = 0) :
    boxAvg R f x y = 0 := by
  unfold boxAvg
  rw [Finset.sum_eq_zero, zero_div]
  intro dx hdx
  rw [Finset.mem_Icc] at hdx
  apply Finset.sum_eq_zero
  intro dy _
  exact h (x + dx) (y + dy) (by omega) (by omega)

theorem blurRS_le (s : ℤ) (hs : 0 ≤ s) :
    ((blurRS s : ℕ) : ℚ) * 512 ≤ 75 * (s : ℚ) := by
  unfold blurRS
  have h1 : (75 * s.toNat / 512) * 512 ≤ 75 * s.toNat := Nat.div_mul_le_self _ _
  have h2 : ((75 * s.toNat / 512 : ℕ) : ℚ) * 512 ≤ 75 * ((s.toNat : ℕ) : ℚ) := by
    exact_mod_cast h1
  have h3 : ((s.toNat : ℕ) : ℚ) = ((s : ℤ) : ℚ) := by
    exact_mod_cast congrArg (Int.cast : ℤ → ℚ) (Int.toNat_of_nonneg hs)
  rw [h3] at h2
  exact h2

theorem segDistSq_x_bound (px py ax ay qx qy w : ℚ) (hw : 0 ≤ w)
    (h : segDistSq px py ax ay qx qy ≤ w^2) :
    min ax qx - w ≤ px ∧ px ≤ max ax qx + w := by
  unfold segDistSq at h
  set t := max 0 (min 1 (((px - ax) * (qx - ax) + (py - ay) * (qy - ay)) /
      ((qx - ax)^2 + (qy - ay)^2))) with ht
  have ht0 : 0 ≤ t := le_max_left _ _
  have ht1 : t ≤ 1 := max_le zero_le_one (min_le_left _ _)
  have hc1 : min ax qx ≤ ax + t * (qx - ax) := by
    rcases le_total ax qx with hq | hq
    · rw [min_eq_left hq]; nlinarith
    · rw [min_eq_right hq]; nlinarith
  have hc2 : ax + t * (qx - ax) ≤ max ax qx := by
    rcases le_total ax qx with hq | hq
    · rw [max_eq_right hq]; nlinarith
    · rw [max_eq_left hq]; nlinarith
  have hsq : (px - (ax + t * (qx - ax)))^2 ≤ w^2 := by
    nlinarith [sq_nonneg (py - (ay + t * (qy - ay)))]
  have habs := abs_le_of_sq_le_sq' hsq hw
  constructor
  · linarith [habs.1]
  · linarith [habs.2]

theorem bgPixS_eq_clear (s x y : ℤ)
    (hx : (x : ℚ) < sc s 16 ∨ sc s 496 < (x : ℚ)) :
    bgPixS s x y = RGBA.clear := by
  unfold bgPixS
  rw [if_neg]
  intro h
  rcases hx with hx | hx
  · exact absurd h.1 (not_le.mpr hx)
  · exact absurd h.2.1 (not_le.mpr hx)

theorem gradPixS_eq_clear (s x y : ℤ)
    (hx : (x : ℚ) < sc s 16 ∨ sc s 496 < (x : ℚ)) :
    gradPixS s x y = RGBA.clear := by
  unfold gradPixS
  rw [if_neg]
  intro h
  rcases hx with hx | hx
  · exact absurd h.1.1 (not_le.mpr hx)
  · exact absurd h.1.2.1 (not_le.mpr hx)

theorem bodyPixS_eq_clear (s x y : ℤ)
    (hx : (x : ℚ) < sc s 194 ∨ sc s 318 < (x : ℚ)) :
    bodyPixS s x y = RGBA.clear := by
  unfold bodyPixS capsuleS
  rw [if_neg]
  intro h
  rcases hx with hx | hx
  · exact absurd h.1 (not_le.mpr hx)
  · exact absurd h.2.1 (not_le.mpr hx)

theorem glowBasePixS_eq_clear (s x y : ℤ)
    (hx : (x : ℚ) < sc s 174 ∨ sc s 338 < (x : ℚ)) :
    glowBasePixS s x y = RGBA.clear := by
  unfold glowBasePixS
  rw [if_neg]
  intro h
  rcases hx with hx | hx
  · exact absurd h.1 (not_le.mpr hx)
  · exact absurd h.2.1 (not_le.mpr hx)

theorem glowPixS_a_zero (s x y : ℤ)
    (h : ∀ u : ℤ, x - (blurRS s : ℤ) ≤ u → u ≤ x + (blurRS s : ℤ) →
      ((u : ℚ) < sc s 174 ∨ sc s 338 < (u : ℚ))) :
    (glowPixS s x y).a = 0 := by
  show boxAvg (blurRS s) (fun u v => (glowBasePixS s u v).a) x y = 0
  apply boxAvg_zero
  intro u v hu1 hu2
  rw [glowBasePixS_eq_clear s u v (h u hu1 hu2)]
  rfl

theorem arcHitS_x_bound (s x y : ℤ) (hq : (64 : ℚ) ≤ (s : ℚ)) (h : arcHitS s x y) :
    sc s 156 ≤ (x : ℚ) ∧ (x : ℚ) ≤ sc s 356 := by
  obtain ⟨-, h2, -⟩ := h
  have hq0 : (0 : ℚ) < (s : ℚ) := by linarith
  unfold sc at h2 ⊢
  have hsb : (0 : ℚ) < (80 * (s : ℚ) / 512)^2 := by positivity
  have h3 : ((x : ℚ) - 256 * (s : ℚ) / 512)^2 ≤ (100 * (s : ℚ) / 512)^2 := by
    have hy : (0 : ℚ) ≤ ((y : ℚ) - 265 * (s : ℚ) / 512)^2 * (100 * (s : ℚ) / 512)^2 :=
      mul_nonneg (sq_nonneg _) (sq_nonneg _)
    have h4 : ((x : ℚ) - 256 * (s : ℚ) / 512)^2 * (80 * (s : ℚ) / 512)^2
        ≤ (100 * (s : ℚ) / 512)^2 * (80 * (s : ℚ) / 512)^2 := by nlinarith
    exact (mul_le_mul_right hsb).mp h4
  have habs := abs_le_of_sq_le_sq' h3 (by positivity)
  constructor
  · linarith [habs.1]
  · linarith [habs.2]

theorem chevronHitS_x_bound (s c x y : ℤ) (hq : (64 : ℚ) ≤ (s : ℚ))
    (h : chevronHitS s c x y) :
    sc s c - sc s 16 - sc s 4 ≤ (x : ℚ) ∧ (x : ℚ) ≤ sc s c + sc s 16 + sc s 4 := by
  have hq0 : (0 : ℚ) ≤ (s : ℚ) := by linarith
  have hw : (0 : ℚ) ≤ sc s 4 := by unfold sc; positivity
  have h16 : (0 : ℚ) ≤ sc s 16 := by unfold sc; positivity
  have hle : sc s c - sc s 16 ≤ sc s c + sc s 16 := by linarith
  rcases h with h | h
  · have hb := segDistSq_x_bound _ _ _ _ _ _ _ hw h
    rw [min_eq_left hle, max_eq_right hle] at hb
    exact ⟨by linarith [hb.1], by linarith [hb.2]⟩
  · have hb := segDistSq_x_bound _ _ _ _ _ _ _ hw h
    rw [min_eq_right hle, max_eq_left hle] at hb
    exact ⟨by linarith [hb.1], by linarith [hb.2]⟩

theorem sc_mono (s a b : ℤ) (hq : (0 : ℚ) ≤ (s : ℚ)) (hab : a ≤ b) :
    sc s a ≤ sc s b := by
  unfold sc
  have h1 : ((a : ℤ) : ℚ) ≤ ((b : ℤ) : ℚ) := by exact_mod_cast hab
  have h2 : ((a : ℤ) : ℚ) * (s : ℚ) ≤ ((b : ℤ) : ℚ) * (s : ℚ) :=
    mul_le_mul_of_nonneg_right h1 hq
  linarith

theorem chevronHitS_excluded (s c x y : ℤ) (hq : (64 : ℚ) ≤ (s : ℚ))
    (hx : (x : ℚ) < sc s 148 ∨ sc s 368 < (x : ℚ))
    (hcl : (148 : ℤ) ≤ c - 20) (hcu : c + 20 ≤ 368) :
    ¬ chevronHitS s c x y := by
  intro h
  have hb := chevronHitS_x_bound s c x y hq h
  have hq0 : (0 : ℚ) ≤ (s : ℚ) := by linarith
  have e1 : sc s c - sc s 16 - sc s 4 = sc s (c - 20) := by
    unfold sc; push_cast; ring
  have e2 : sc s c + sc s 16 + sc s 4 = sc s (c + 20) := by
    unfold sc; push_cast; ring
  rcases hx with hx | hx
  · have hm := sc_mono s 148 (c - 20) hq0 hcl
    rw [e1] at hb
    linarith [hb.1]
  · have hm := sc_mono s (c + 20) 368 hq0 hcu
    rw [e2] at hb
    linarith [hb.2]

theorem decoPixS_eq_clear (s x y : ℤ) (hq : (64 : ℚ) ≤ (s : ℚ))
    (hx : (x : ℚ) < sc s 148 ∨ sc s 368 < (x : ℚ)) :
    decoPixS s x y = RGBA.clear := by
  have hq0 : (0 : ℚ) ≤ (s : ℚ) := by linarith
  unfold decoPixS
  rw [if_neg, if_neg (chevronHitS_excluded s 168 x y hq hx (by norm_num) (by norm_num)),
    if_neg (chevronHitS_excluded s 228 x y hq hx (by norm_num) (by norm_num)),
    if_neg (chevronHitS_excluded s 288 x y hq hx (by norm_num) (by norm_num)),
    if_neg (chevronHitS_excluded s 348 x y hq hx (by norm_num) (by norm_num))]
  rintro (h | h | h)
  · have hb := arcHitS_x_bound s x y hq h
    rcases hx with hx | hx
    · linarith [hb.1, sc_mono s 148 156 hq0 (by norm_num)]
    · linarith [hb.2, sc_mono s 356 368 hq0 (by norm_num)]
  · obtain ⟨h1, h2, -, -⟩ := h
    rcases hx with hx | hx
    · linarith [sc_mono s 148 251 hq0 (by norm_num)]
    · linarith [sc_mono s 261 368 hq0 (by norm_num)]
  · obtain ⟨h1, h2, -, -⟩ := h
    rcases hx with hx | hx
    · linarith [sc_mono s 148 214 hq0 (by norm_num)]
    · linarith [sc_mono s 298 368 hq0 (by norm_num)]

theorem renderPix_a_zero_of_x (s x y : ℤ) (hq : (64 : ℚ) ≤ (s : ℚ))
    (hx : (x : ℚ) < sc s 16 ∨ sc s 496 < (x : ℚ)) :
    (renderPix s x y).a = 0 := by
  have hq0 : (0 : ℚ) ≤ (s : ℚ) := by linarith
  have hR : ((blurRS s : ℕ) : ℚ) * 512 ≤ 75 * (s : ℚ) := by
    apply blurRS_le
    exact_mod_cast hq0
  have hbg : (bgPixS s x y).a = 0 := by
    rw [bgPixS_eq_clear s x y hx]; rfl
  have hgrad : (gradPixS s x y).a = 0 := by
    rw [gradPixS_eq_clear s x y hx]; rfl
  have hbody : (bodyPixS s x y).a = 0 := by
    rw [bodyPixS_eq_clear s x y ?_]; rfl
    rcases hx with hx | hx
    · exact Or.inl (lt_of_lt_of_le hx (sc_mono s 16 194 hq0 (by norm_num)))
    · exact Or.inr (lt_of_le_of_lt (sc_mono s 318 496 hq0 (by norm_num)) hx)
  have hdeco : (decoPixS s x y).a = 0 := by
    rw [decoPixS_eq_clear s x y hq ?_]; rfl
    rcases hx with hx | hx
    · exact Or.inl (lt_of_lt_of_le hx (sc_mono s 16 148 hq0 (by norm_num)))
    · exact Or.inr (lt_of_le_of_lt (sc_mono s 368 496 hq0 (by norm_num)) hx)
  have hglow : (glowPixS s x y).a = 0 := by
    apply glowPixS_a_zero
    intro u hu1 hu2
    have hu1q : (x : ℚ) - ((blurRS s : ℕ) : ℚ) ≤ (u : ℚ) := by exact_mod_cast hu1
    have hu2q : (u : ℚ) ≤ (x : ℚ) + ((blurRS s : ℕ) : ℚ) := by exact_mod_cast hu2
    unfold sc at hx ⊢
    rcases hx with hx | hx
    · left; nlinarith
    · right; nlinarith
  unfold renderPix
  exact RGBA.over_a_of_clear _ _ hdeco
    (RGBA.over_a_of_clear _ _ hbody
      (RGBA.over_a_of_clear _ _ hglow
        (RGBA.over_a_of_clear _ _ hgrad hbg)))

theorem renderPix_center_opaque (s : ℤ) (hs : (64 : ℤ) ≤ s) :
    (renderPix s (s / 2) (s / 2)).a = 255 := by
  have hq : (64 : ℚ) ≤ (s : ℚ) := by exact_mod_cast hs
  have hz1 : 2 * (s / 2) ≤ s := by omega
  have hz2 : s ≤ 2 * (s / 2) + 1 := by omega
  have hm2 : 2 * ((s / 2 : ℤ) : ℚ) ≤ (s : ℚ) := by exact_mod_cast hz1
  have hm1 : (s : ℚ) ≤ 2 * ((s / 2 : ℤ) : ℚ) + 1 := by exact_mod_cast hz2
  have hin : inRR (sc s 16) (sc s 16) (sc s 496) (sc s 496) (sc s 96)
      ((s / 2 : ℤ) : ℚ) ((s / 2 : ℤ) : ℚ) := by
    unfold sc
    refine ⟨by linarith, by linarith, by linarith, by linarith,
      fun hx _ => absurd hx (by push_cast; intro hx; nlinarith),
      fun hx _ => absurd hx (by push_cast; intro hx; nlinarith),
      fun _ hy => absurd hy (by push_cast; intro hy; nlinarith),
      fun _ hy => absurd hy (by push_cast; intro hy; nlinarith)⟩
  have hbg : (bgPixS s (s / 2) (s / 2)).a = 255 := by
    unfold bgPixS
    rw [if_pos hin]
    split <;> rfl
  unfold renderPix
  exact RGBA.over_a_of_opaque _ _
    (RGBA.over_a_of_opaque _ _
      (RGBA.over_a_of_opaque _ _
        (RGBA.over_a_of_opaque _ _ hbg)))

/-- C2 (spec-modelled): for every valid size `s ≥ 64`, `render s` succeeds
with an image of exactly `s × s` pixels whose center pixel `(s/2, s/2)` is
fully opaque (alpha 255) and whose four corner pixels are fully
transparent (alpha 0). -/
theorem render_size_center_corners (s : ℤ) (h : (64 : ℤ) ≤ s) :
    ∃ im, render s = Except.ok im ∧ im.width = s.toNat ∧ im.height = s.toNat ∧
      (im.pix (s / 2) (s / 2)).a = 255 ∧
      (im.pix 0 0).a = 0 ∧ (im.pix (s - 1) 0).a = 0 ∧
      (im.pix 0 (s - 1)).a = 0 ∧ (im.pix (s - 1) (s - 1)).a = 0 := by
  have hq : (64 : ℚ) ≤ (s : ℚ) := by exact_mod_cast h
  have hlow : ((0 : ℤ) : ℚ) < sc s 16 := by
    unfold sc; push_cast; nlinarith
  have hhigh : sc s 496 < ((s - 1 : ℤ) : ℚ) := by
    unfold sc; push_cast; nlinarith
  refine ⟨renderImage s, ?_, rfl, rfl, renderPix_center_opaque s h,
    renderPix_a_zero_of_x s 0 0 hq (Or.inl hlow),
    renderPix_a_zero_of_x s (s - 1) 0 hq (Or.inr hhigh),
    renderPix_a_zero_of_x s 0 (s - 1) hq (Or.inl hlow),
    renderPix_a_zero_of_x s (s - 1) (s - 1) hq (Or.inr hhigh)⟩
  unfold render
  rw [if_neg (not_lt.mpr h)]

theorem render_size_center_corners_witness :
    ∃ im, render 512 = Except.ok im ∧
      im.width = (512 : ℤ).toNat ∧ im.height = (512 : ℤ).toNat ∧
      (im.pix (512 / 2) (512 / 2)).a = 255 ∧
      (im.pix 0 0).a = 0 ∧ (im.pix ((512 : ℤ) - 1) 0).a = 0 ∧
      (im.pix 0 ((512 : ℤ) - 1)).a = 0 ∧
      (im.pix ((512 : ℤ) - 1) ((512 : ℤ) - 1)).a = 0 :=
  render_size_center_corners 512 (by norm_num)

/-- C3 (spec-modelled): rendering fails with `InvalidDimension` exactly
when the requested size is non-positive or below the minimum 64 the fixed
layout supports, and succeeds (raising no other error) for every valid
size. -/
theorem render_invalid_dimension (s : ℤ) :
    (s < 64 → render s = Except.error RenderError.invalidDimension) ∧
    (64 ≤ s → ∃ im, render s = Except.ok im) := by
  constructor
  · intro h
    unfold render
    rw [if_pos h]
  · intro h
    refine ⟨renderImage s, ?_⟩
    unfold render
    rw [if_neg (not_lt.mpr h)]

theorem render_invalid_dimension_witness :
    render (-3) = Except.error RenderError.invalidDimension ∧
    render 0 = Except.error RenderError.invalidDimension ∧
    (∃ im, render 512 = Except.ok im) :=
  ⟨(render_invalid_dimension (-3)).1 (by norm_num),
   (render_invalid_dimension 0).1 (by norm_num),
   (render_invalid_dimension 512).2 (by norm_num)⟩
